import Mathlib

/-!
Verification of the RadioBox FPGA driver (`apps-free/radiobox/src/fpga_rb.c`) and of the
housekeeping module (`api-mockup/rpbase/src/housekeeping.c`).

The C sources are shallowly embedded.  Machine integers are modelled as `Nat`/`Int` with
explicit reductions modulo `2^32` / `2^64` where wrap-around matters; `double` arithmetic
is modelled exactly over `ℚ`; the memory-mapped register file `fpga_rb_reg_mem_t` is a
Lean structure.  A `none` register state models a null `g_fpga_rb_reg_mem` pointer, and an
operation that dereferences the mapped structure without a null check is modelled as
returning `Except.error ()` on `none`, while an operation that begins with
`if (!g_fpga_rb_reg_mem) return ...;` returns normally on `none`.
-/

/-- Value of an integer as a C `uint32_t` (reduction modulo `2^32`), the semantics of a
cast to `uint32_t` of a two's-complement value. -/
def u32 (z : ℤ) : ℕ := (z % 0x100000000).toNat

/-- Truncation of a rational towards zero, the semantics of the C cast from `double` to a
signed integer type such as `int64_t bitfield = qrg;`. -/
def ratTrunc (q : ℚ) : ℤ := if 0 ≤ q then ⌊q⌋ else ⌈q⌉

/-- Reassembly of a 64-bit two's-complement value from a natural number below `2^64`, the
semantics of the C idiom `bitfield = lo; bitfield |= ((int64_t) hi) << 32;` on an
`int64_t` built from two unsigned 32-bit register halves (gcc wrap-around behaviour for
the shift of a high half with its top bit set). -/
def toInt64 (n : ℕ) : ℤ :=
  if n % 0x10000000000000000 < 0x8000000000000000 then
    ((n % 0x10000000000000000 : ℕ) : ℤ)
  else ((n % 0x10000000000000000 : ℕ) : ℤ) - 0x10000000000000000

/-- Rounding half away from zero (symmetric rounding), the rounding mode named by the
spec for the frequency-to-register conversion; Mathlib `round` is rounding half up, which
agrees with symmetric rounding on nonnegative arguments. -/
def roundSym (q : ℚ) : ℤ := if q < 0 then -round (-q) else round q

/-- The RadioBox register file `fpga_rb_reg_mem_t` (the fields touched by the verified
operations).  Every field models one `uint32_t` hardware register. -/
structure RbRegs where
  ctrl : ℕ := 0
  status : ℕ := 0
  version : ℕ := 0
  pwr_ctrl : ℕ := 0
  src_con_pnt : ℕ := 0
  src_con_pnt2 : ℕ := 0
  tx_car_osc_inc_lo : ℕ := 0
  tx_car_osc_inc_hi : ℕ := 0
  tx_car_osc_ofs_lo : ℕ := 0
  tx_car_osc_ofs_hi : ℕ := 0
  tx_mod_osc_inc_lo : ℕ := 0
  tx_mod_osc_inc_hi : ℕ := 0
  tx_mod_osc_ofs_lo : ℕ := 0
  tx_mod_osc_ofs_hi : ℕ := 0
  tx_muxin_src : ℕ := 0
  tx_muxin_gain : ℕ := 0
  tx_muxin_ofs : ℕ := 0
  tx_amp_rf_gain : ℕ := 0
  tx_amp_rf_ofs : ℕ := 0
  rx_car_osc_inc_lo : ℕ := 0
  rx_car_osc_inc_hi : ℕ := 0
  rx_car_osc_ofs_lo : ℕ := 0
  rx_car_osc_ofs_hi : ℕ := 0
  rx_mod_osc_inc_lo : ℕ := 0
  rx_mod_osc_inc_hi : ℕ := 0
  rx_mod_osc_ofs_lo : ℕ := 0
  rx_mod_osc_ofs_hi : ℕ := 0
  rx_muxin_src : ℕ := 0
  rx_muxin_gain : ℕ := 0
  rx_muxin_ofs : ℕ := 0
  rx_afc_cordic_mag : ℕ := 0
  rfout1_gain : ℕ := 0
  rfout1_ofs : ℕ := 0
  rfout2_gain : ℕ := 0
  rfout2_ofs : ℕ := 0
  deriving DecidableEq

/-- All-zero register file, used as a concrete starting state. -/
def RbRegs.zero : RbRegs := {}

/-- The `double` value `((double) (1ULL << 48)) * (qrg_hz / base_osc125mhz_realhz)`
computed at the head of each oscillator frequency setter in fpga_rb.c (exact rational
model of the double arithmetic). -/
def rb_qrg_pre (base_osc125mhz_realhz qrg_hz : ℚ) : ℚ :=
  ((2 : ℚ) ^ 48) * (qrg_hz / base_osc125mhz_realhz)

/-- The 48-bit DDS increment computed by the oscillator frequency setters
(fpga_rb.c lines 1275-1282, with identical blocks at lines 1202-1209, 1431-1438 and
1536-1541): `if (qrg > 0.0) qrg += 0.5; else if (qrg < 0.0) qrg -= -0.5;` followed by the
truncating cast `int64_t bitfield = qrg;`.  Note that the negative branch literally
subtracts `-0.5`, that is, it also adds `0.5`. -/
def rb_qrg_bitfield (base_osc125mhz_realhz qrg_hz : ℚ) : ℤ :=
  ratTrunc
    (if 0 < rb_qrg_pre base_osc125mhz_realhz qrg_hz then
       rb_qrg_pre base_osc125mhz_realhz qrg_hz + 1/2
     else if rb_qrg_pre base_osc125mhz_realhz qrg_hz < 0 then
       rb_qrg_pre base_osc125mhz_realhz qrg_hz - -(1/2)
     else rb_qrg_pre base_osc125mhz_realhz qrg_hz)

/-- fpga_rb_set_tx_car_osc_qrg__4mod_cw_ssb_am_pm (fpga_rb.c lines 1273-1296): computes
the 48-bit DDS increment and writes its low and high halves
(`bf_lo = (uint32_t)(bitfield & 0xffffffff)`, `bf_hi = (uint32_t)(bitfield >> 32)`, the
arithmetic shift of the `int64_t` being floor division) plus zero phase offsets. -/
def fpga_rb_set_tx_car_osc_qrg__4mod_cw_ssb_am_pm (base tx_car_osc_qrg : ℚ)
    (r : RbRegs) : RbRegs :=
  { r with
    tx_car_osc_inc_lo := u32 (rb_qrg_bitfield base tx_car_osc_qrg)
    tx_car_osc_inc_hi := u32 (rb_qrg_bitfield base tx_car_osc_qrg / 0x100000000)
    tx_car_osc_ofs_lo := 0
    tx_car_osc_ofs_hi := 0 }

/-- fpga_rb_set_rx_car_osc_qrg__4mod_ssb_am_fm_pm (fpga_rb.c lines 1429-1452): identical
conversion targeting the RX carrier oscillator registers. -/
def fpga_rb_set_rx_car_osc_qrg__4mod_ssb_am_fm_pm (base rx_car_osc_qrg : ℚ)
    (r : RbRegs) : RbRegs :=
  { r with
    rx_car_osc_inc_lo := u32 (rb_qrg_bitfield base rx_car_osc_qrg)
    rx_car_osc_inc_hi := u32 (rb_qrg_bitfield base rx_car_osc_qrg / 0x100000000)
    rx_car_osc_ofs_lo := 0
    rx_car_osc_ofs_hi := 0 }

/-- fpga_rb_set_tx_mod_osc_qrg__4mod_ssbweaver_am_fm_pm (fpga_rb.c lines 1200-1223):
identical conversion targeting the TX modulation oscillator registers. -/
def fpga_rb_set_tx_mod_osc_qrg__4mod_ssbweaver_am_fm_pm (base tx_mod_osc_qrg : ℚ)
    (r : RbRegs) : RbRegs :=
  { r with
    tx_mod_osc_inc_lo := u32 (rb_qrg_bitfield base tx_mod_osc_qrg)
    tx_mod_osc_inc_hi := u32 (rb_qrg_bitfield base tx_mod_osc_qrg / 0x100000000)
    tx_mod_osc_ofs_lo := 0
    tx_mod_osc_ofs_hi := 0 }

/-- fpga_rb_get_tx_car_osc_qrg (fpga_rb.c lines 1299-1309): reassembles the 48-bit
increment from the lo/hi registers into a signed 64-bit value, scales it back to Hz and
rounds with `floor(x + 0.5)`; the result models the integer-valued `double` returned. -/
def fpga_rb_get_tx_car_osc_qrg (base_osc125mhz_realhz : ℚ) (r : RbRegs) : ℚ :=
  ((⌊base_osc125mhz_realhz *
      (((toInt64 (r.tx_car_osc_inc_lo % 0x100000000 +
          0x100000000 * (r.tx_car_osc_inc_hi % 0x100000000)) : ℤ) : ℚ) / (2 : ℚ) ^ 48) +
      1/2⌋ : ℤ) : ℚ)

/-- fpga_rb_get_rx_car_osc_qrg (fpga_rb.c lines 1455-1465): identical readback of the RX
carrier oscillator registers. -/
def fpga_rb_get_rx_car_osc_qrg (base_osc125mhz_realhz : ℚ) (r : RbRegs) : ℚ :=
  ((⌊base_osc125mhz_realhz *
      (((toInt64 (r.rx_car_osc_inc_lo % 0x100000000 +
          0x100000000 * (r.rx_car_osc_inc_hi % 0x100000000)) : ℤ) : ℚ) / (2 : ℚ) ^ 48) +
      1/2⌋ : ℤ) : ℚ)

/-- Common shape of fpga_rb_set_tx_muxin_gain / fpga_rb_set_rx_muxin_gain after the
clamp to 100 (fpga_rb.c lines 1180-1194 and 1409-1423): zero at or below 0, linear
encoding `(uint32_t)(0.5 + g*0xffff/80.0)` masked to 16 bits below 80, and at 80 or
above the booster regime `((uint32_t)(0.5 + (g-80)*boostFactor) << 16) | 0xffff`; the
TX path uses `boostFactor = 7.0/20.0`, the RX path `5.0/20.0`. -/
def clamped_muxin_bitfield (boostFactor : ℚ) (g : ℤ) : ℕ :=
  if g ≤ 0 then 0
  else if g < 80 then 0xffff &&& (ratTrunc (1/2 + (g : ℚ) * 0xffff / 80)).toNat
  else ((ratTrunc (1/2 + ((g : ℚ) - 80) * boostFactor)).toNat <<< 16) ||| 0xffff

/-- Gain bitfield computed by fpga_rb_set_tx_muxin_gain (fpga_rb.c lines 1172-1194):
`if (tx_muxin_gain > 100) tx_muxin_gain = 100;` followed by the shared encoding with
booster factor `7.0/20.0`. -/
def tx_muxin_gain_bitfield (tx_muxin_gain : ℤ) : ℕ :=
  clamped_muxin_bitfield (7/20) (if 100 < tx_muxin_gain then 100 else tx_muxin_gain)

/-- Gain bitfield computed by fpga_rb_set_rx_muxin_gain (fpga_rb.c lines 1401-1423):
clamp to 100 followed by the shared encoding with booster factor `5.0/20.0`. -/
def rx_muxin_gain_bitfield (rx_muxin_gain : ℤ) : ℕ :=
  clamped_muxin_bitfield (5/20) (if 100 < rx_muxin_gain then 100 else rx_muxin_gain)

/-- Register writes of fpga_rb_set_tx_muxin_gain (fpga_rb.c lines 1172-1197): the gain
bitfield plus `tx_muxin_ofs = tx_muxin_ofs & 0xffff` (low 16 bits of the signed offset
in two's complement). -/
def fpga_rb_set_tx_muxin_gain_regs (tx_muxin_gain tx_muxin_ofs : ℤ) (r : RbRegs) :
    RbRegs :=
  { r with
    tx_muxin_gain := tx_muxin_gain_bitfield tx_muxin_gain
    tx_muxin_ofs := (tx_muxin_ofs % 0x10000).toNat }

/-- Register writes of fpga_rb_set_rx_muxin_gain (fpga_rb.c lines 1401-1426). -/
def fpga_rb_set_rx_muxin_gain_regs (rx_muxin_gain rx_muxin_ofs : ℤ) (r : RbRegs) :
    RbRegs :=
  { r with
    rx_muxin_gain := rx_muxin_gain_bitfield rx_muxin_gain
    rx_muxin_ofs := (rx_muxin_ofs % 0x10000).toNat }

/-- Register writes of the enable branch / disable branch of fpga_rb_enable
(fpga_rb.c lines 129-151). -/
def fpga_rb_enable_regs (enable : Bool) (r : RbRegs) : RbRegs :=
  if enable then
    { r with
      ctrl := 0x00000001
      src_con_pnt := 0x301C0000
      tx_muxin_gain := 0x00007FFF
      tx_amp_rf_gain := 0x00000C80
      tx_amp_rf_ofs := 0 }
  else
    { r with
      src_con_pnt := 0x00000000
      tx_muxin_gain := 0x00000000
      tx_amp_rf_gain := 0
      rx_muxin_src := 0x00000000
      ctrl := 0x00000000 }

/-- fpga_rb_enable (fpga_rb.c lines 121-154).  The function begins with
`if (!g_fpga_rb_reg_mem) return;`, so on a null register pointer it returns without any
register access (`Except.ok none`). -/
def fpga_rb_enable (enable : Bool) (s : Option RbRegs) : Except Unit (Option RbRegs) :=
  match s with
  | none => .ok none
  | some r => .ok (some (fpga_rb_enable_regs enable r))

/-- fpga_rb_set_tx_muxin_gain as an operation on the optional register state.  The C
function (fpga_rb.c lines 1172-1197) has no null check and dereferences
`g_fpga_rb_reg_mem` unconditionally, modelled as `Except.error ()` on `none`. -/
def fpga_rb_set_tx_muxin_gain (tx_muxin_gain tx_muxin_ofs : ℤ) (s : Option RbRegs) :
    Except Unit (Option RbRegs) :=
  match s with
  | none => .error ()
  | some r => .ok (some (fpga_rb_set_tx_muxin_gain_regs tx_muxin_gain tx_muxin_ofs r))

/-- fpga_rb_set_rx_muxin_gain as an operation on the optional register state; no null
check in the C source (fpga_rb.c lines 1401-1426). -/
def fpga_rb_set_rx_muxin_gain (rx_muxin_gain rx_muxin_ofs : ℤ) (s : Option RbRegs) :
    Except Unit (Option RbRegs) :=
  match s with
  | none => .error ()
  | some r => .ok (some (fpga_rb_set_rx_muxin_gain_regs rx_muxin_gain rx_muxin_ofs r))

/-- prepare_rx_measurement (fpga_rb.c lines 1684-1705): writes the calibration
measurement set-up registers.  The C function has no null check, modelled as
`Except.error ()` on `none`. -/
def prepare_rx_measurement (inputLine : ℕ) (s : Option RbRegs) :
    Except Unit (Option RbRegs) :=
  match s with
  | none => .error ()
  | some r =>
    .ok (some
      { r with
        ctrl := 0x00000001
        pwr_ctrl := 0x00000007
        src_con_pnt := 0x00000000
        rx_car_osc_inc_lo := 0x3e2d6238
        rx_car_osc_inc_hi := 0x00000005
        rx_muxin_src := inputLine
        rx_muxin_gain := 0x00001fff })

/-- fpga_get_version (fpga_rb.c lines 203-226): returns `(uint32_t) -1` on a null
register pointer, `(uint32_t) -2` when the version register is outside
`[0x12010101, 0x29123299]`, `(uint32_t) -3` when any of the eight BCD nibbles
(positions 28, 24, ..., 4, 0) exceeds 9, and the version itself otherwise.
The function is guarded, so it never faults. -/
def fpga_get_version (s : Option RbRegs) : Except Unit ℕ :=
  match s with
  | none => .ok (u32 (-1))
  | some r =>
    if r.version < 0x12010101 ∨ 0x29123299 < r.version then .ok (u32 (-2))
    else if [28, 24, 20, 16, 12, 8, 4, 0].any
        (fun pos => decide (0x9 < (r.version >>> pos) &&& 0xf)) then .ok (u32 (-3))
    else .ok r.version

/-- Return-code behaviour of fpga_rb_update_all_params (fpga_rb.c lines 285-488): `-1`
when the register pointer, the base parameter list or the new-list pointer is null, `-2`
when the dereferenced new-parameter list is null, and `0` otherwise (the parameter loop
and the final `fpga_rb_set_ctrl` call contain no further return statement). -/
def fpga_rb_update_all_params_ret
    (g_fpga_rb_reg_mem_present pb_present p_pn_present pn_present : Bool) : ℤ :=
  if !g_fpga_rb_reg_mem_present || !pb_present || !p_pn_present then -1
  else if !pn_present then -2
  else 0

/-- Bit-refinement loop of rp_minimize_noise (fpga_rb.c lines 1766-1781), parametrised by
the measurement function `meas` that models `test_rx_measurement` on a candidate ADC
offset (already shifted by `- 0x8000`) and a reduction level: for the loop variable
`i+1` running from 15 down to 1 it probes `min_ofs_value | (0b01 << (i))` against
`min_ofs_value | (0b11 << (i))` (with `i = loop variable - 1`) at reduction
`max(loopvar - 11, 0)` and ORs in `1 << loopvar` when the high probe measures strictly
smaller. -/
def rp_minimize_noise_aux (meas : ℤ → ℕ → ℕ) : ℕ → ℕ → ℕ
  | 0, min_ofs_value => min_ofs_value
  | i + 1, min_ofs_value =>
    rp_minimize_noise_aux meas i
      (if meas (((min_ofs_value ||| (0b11 <<< i) : ℕ) : ℤ) - 0x8000) (i + 1 - 11) <
          meas (((min_ofs_value ||| (0b01 <<< i) : ℕ) : ℤ) - 0x8000) (i + 1 - 11) then
        min_ofs_value ||| (0b1 <<< (i + 1))
      else min_ofs_value)

/-- rp_minimize_noise (fpga_rb.c lines 1755-1793): runs the 15-step bit-refinement loop
from bit position 15, performs the final LSB decision at reduction 0 and returns the
winner shifted to a signed offset by subtracting `0x8000`. -/
def rp_minimize_noise (meas : ℤ → ℕ → ℕ) : ℤ :=
  ((if meas (((rp_minimize_noise_aux meas 15 0 ||| 0b1 : ℕ) : ℤ) - 0x8000) 0 <
        meas (((rp_minimize_noise_aux meas 15 0 : ℕ) : ℤ) - 0x8000) 0 then
      rp_minimize_noise_aux meas 15 0 ||| 0b1
    else rp_minimize_noise_aux meas 15 0 : ℕ) : ℤ) - 0x8000

/-- The bit-refinement loop exactly as the claim describes it: at step `i` (the loop
variable, here `i+1`) it compares the measurements for the candidate offsets
`min_ofs_value | 2^(i-1)` and `min_ofs_value | 3*2^(i-1)` and sets bit `i` of the
accumulated offset exactly when the high candidate measurement is strictly smaller. -/
def rp_minimize_noise_claim_aux (meas : ℤ → ℕ → ℕ) : ℕ → ℕ → ℕ
  | 0, acc => acc
  | i + 1, acc =>
    rp_minimize_noise_claim_aux meas i
      (if meas (((acc ||| 3 * 2 ^ i : ℕ) : ℤ) - 0x8000) (i + 1 - 11) <
          meas (((acc ||| 2 ^ i : ℕ) : ℤ) - 0x8000) (i + 1 - 11) then
        acc ||| 2 ^ (i + 1)
      else acc)

/-- rp_minimize_noise as the claim describes it: 15 bit positions from the MSB (bit 15)
down to bit 1, a final LSB decision between the accumulated offset and the accumulated
offset with bit 0 set, and the winner shifted to a signed offset by `- 0x8000`. -/
def rp_minimize_noise_claim (meas : ℤ → ℕ → ℕ) : ℤ :=
  ((if meas (((rp_minimize_noise_claim_aux meas 15 0 ||| 1 : ℕ) : ℤ) - 0x8000) 0 <
        meas (((rp_minimize_noise_claim_aux meas 15 0 : ℕ) : ℤ) - 0x8000) 0 then
      rp_minimize_noise_claim_aux meas 15 0 ||| 1
    else rp_minimize_noise_claim_aux meas 15 0 : ℕ) : ℤ) - 0x8000

/-- Static cache of fpga_rb_set_ctrl (fpga_rb.c lines 577-582): the six `old` values
compared by the RF-output gain recompute gate.  All statics start at zero. -/
structure SetCtrlCache where
  tx_car_osc_qrg_old : ℚ := 0
  rx_car_osc_qrg_old : ℚ := 0
  src_con_pnt_old : ℕ := 0
  src_con_pnt2_old : ℕ := 0
  term_rfout1_old : ℤ := 0
  term_rfout2_old : ℤ := 0
  deriving DecidableEq

/-- Frequency selection for one RF output connection point (fpga_rb.c lines 627-646). -/
def rfout_frequency_sel (ssb_weaver_osc_qrg tx_car_osc_qrg rx_car_osc_qrg : ℚ)
    (con_pnt : ℕ) : ℚ :=
  if 0x04 ≤ con_pnt ∧ con_pnt ≤ 0x17 then ssb_weaver_osc_qrg
  else if 0x18 ≤ con_pnt ∧ con_pnt ≤ 0x1f then tx_car_osc_qrg
  else if 0x20 ≤ con_pnt ∧ con_pnt ≤ 0x21 then rx_car_osc_qrg
  else if 0x22 ≤ con_pnt ∧ con_pnt ≤ 0x41 then ssb_weaver_osc_qrg
  else if 0x48 ≤ con_pnt ∧ con_pnt ≤ 0x50 then ssb_weaver_osc_qrg
  else 0

/-- fpga_rb_set_rfout1_gain_ofs (fpga_rb.c lines 1642-1654): a zero gain is replaced by
1.0, the gain is scaled to 8.8 fixed point and the low 16 bits are written. -/
def fpga_rb_set_rfout1_gain_ofs (rfout1_gain : ℚ) (rfout1_ofs : ℕ) (r : RbRegs) :
    RbRegs :=
  { r with
    rfout1_gain :=
      u32 (ratTrunc (0x0100 * (if rfout1_gain = 0 then 1 else rfout1_gain))) &&& 0xffff
    rfout1_ofs := rfout1_ofs }

/-- fpga_rb_set_rfout2_gain_ofs (fpga_rb.c lines 1657-1669): same as for output 1. -/
def fpga_rb_set_rfout2_gain_ofs (rfout2_gain : ℚ) (rfout2_ofs : ℕ) (r : RbRegs) :
    RbRegs :=
  { r with
    rfout2_gain :=
      u32 (ratTrunc (0x0100 * (if rfout2_gain = 0 then 1 else rfout2_gain))) &&& 0xffff
    rfout2_ofs := rfout2_ofs }

/-- RF-output gain recompute gate of fpga_rb_set_ctrl (fpga_rb.c lines 606-667),
parametrised by the external `get_compensation_factor` (rp_gain_compensation.c, outside
the verified sources).  When any of the six compared parameters differs from its cached
old value, the gains are recomputed, the rfout gain/offset and connection-point
registers are written and the cached values are refreshed — the source refreshes
`tx_car_osc_qrg_old`, `rx_car_osc_qrg_old`, `src_con_pnt_old`, `term_rfout1_old` and
`term_rfout2_old` (lines 615-619) but never assigns `src_con_pnt2_old`.  Otherwise the
whole block is skipped. -/
def fpga_rb_set_ctrl_gate (get_compensation_factor : ℚ → Bool → ℚ)
    (src_con_pnt src_con_pnt2 : ℕ) (term_rfout1 term_rfout2 : ℤ)
    (tx_car_osc_qrg rx_car_osc_qrg : ℚ)
    (c : SetCtrlCache) (r : RbRegs) : SetCtrlCache × RbRegs :=
  if c.src_con_pnt_old ≠ src_con_pnt ∨ c.src_con_pnt2_old ≠ src_con_pnt2 ∨
      c.term_rfout1_old ≠ term_rfout1 ∨ c.term_rfout2_old ≠ term_rfout2 ∨
      c.tx_car_osc_qrg_old ≠ tx_car_osc_qrg ∨ c.rx_car_osc_qrg_old ≠ rx_car_osc_qrg then
    (⟨tx_car_osc_qrg, rx_car_osc_qrg, src_con_pnt, c.src_con_pnt2_old,
      term_rfout1, term_rfout2⟩,
      { fpga_rb_set_rfout2_gain_ofs
          (if term_rfout2 ≠ 0 then
            get_compensation_factor
              (rfout_frequency_sel 1700 tx_car_osc_qrg rx_car_osc_qrg
                ((src_con_pnt &&& 0xff000000) >>> 24))
              (term_rfout2 = 0x01)
          else 1) 0
          (fpga_rb_set_rfout1_gain_ofs
            (if term_rfout1 ≠ 0 then
              get_compensation_factor
                (rfout_frequency_sel 1700 tx_car_osc_qrg rx_car_osc_qrg
                  ((src_con_pnt &&& 0x00ff0000) >>> 16))
                (term_rfout1 = 0x01)
            else 1) 0 r) with
        src_con_pnt := src_con_pnt
        src_con_pnt2 := src_con_pnt2 })
  else (c, r)

/-- Field names of `housekeeping_control_t` (housekeeping.c lines 29-43), in declaration
order; each field is one `uint32_t` word, so the word at index `i` occupies byte offsets
`4*i` to `4*i + 3`. -/
def housekeeping_control_fields : List String :=
  ["id", "dna_part1", "dna_part2", "reserved_1", "ex_cd_p", "ex_cd_n",
   "ex_co_p", "ex_co_n", "ex_ci_p", "ex_ci_n", "reserved_2", "reserved_3",
   "led_control"]

/-- Byte offsets of the 32-bit words of `housekeeping_control_t`. -/
def housekeeping_word_offsets : List ℕ :=
  (List.range housekeeping_control_fields.length).map (fun i => 4 * i)

/-- HOUSEKEEPING_BASE_SIZE (housekeeping.c line 26): size in bytes of the mapped
register window. -/
def HOUSEKEEPING_BASE_SIZE : ℕ := 0x30

/-- LED_CONTROL_MASK (housekeeping.c line 46). -/
def LED_CONTROL_MASK : ℕ := 0xFF

/-- Result codes of the rpbase API used by the housekeeping module.  Modelled from the
spec: the numeric values live in the rp error-code header, which is not among the
sources; only `RP_OK` versus the read-only error `RP_EMRO` matters here. -/
inductive HkStatus where
  | RP_OK : HkStatus
  | RP_EMRO : HkStatus
  deriving DecidableEq

/-- Modelled from the spec: `cmn_SetBits(reg, bits, mask)` of the shared bit-field
accessor (common.c, not among the sources) sets the masked bits in the register:
"generic set/unset/test operations on masked register bit ranges". -/
def cmn_SetBits (reg bits mask : ℕ) : ℕ := reg ||| (bits &&& mask)

/-- hk_SetLedBits (housekeeping.c lines 82-89): rejects exactly the mask `0x1` with
`RP_EMRO` ("first led is read only") and otherwise performs the masked set operation on
the LED control register. -/
def hk_SetLedBits (bits : ℕ) (led_control : ℕ) : HkStatus × ℕ :=
  if bits = 0x1 then (HkStatus.RP_EMRO, led_control)
  else (HkStatus.RP_OK, cmn_SetBits led_control bits LED_CONTROL_MASK)

/-- Truncation towards zero differs from its argument by less than one in each
direction. -/
theorem ratTrunc_bounds (q : ℚ) :
    q - 1 < (ratTrunc q : ℚ) ∧ (ratTrunc q : ℚ) < q + 1 := by
  unfold ratTrunc
  split
  · exact ⟨Int.sub_one_lt_floor q, lt_of_le_of_lt (Int.floor_le q) (by linarith)⟩
  · exact ⟨by linarith [Int.le_ceil q], Int.ceil_lt_add_one q⟩

/-- The DDS increment actually written always lies within `(x - 1/2, x + 3/2)` of the
exact scaled frequency `x`; the lower half-unit slack comes from the positive rounding
branch and the upper three half-units from the `qrg -= -0.5` negative branch. -/
theorem rb_qrg_bitfield_bounds (base f : ℚ) :
    rb_qrg_pre base f - 1/2 < (rb_qrg_bitfield base f : ℚ) ∧
    (rb_qrg_bitfield base f : ℚ) < rb_qrg_pre base f + 3/2 := by
  unfold rb_qrg_bitfield
  split_ifs with h1 h2
  · have h := ratTrunc_bounds (rb_qrg_pre base f + 1/2)
    exact ⟨by linarith [h.1], by linarith [h.2]⟩
  · have h := ratTrunc_bounds (rb_qrg_pre base f - -(1/2))
    exact ⟨by linarith [h.1], by linarith [h.2]⟩
  · have h0 : rb_qrg_pre base f = 0 := le_antisymm (not_lt.mp h1) (not_lt.mp h2)
    rw [h0]
    norm_num [ratTrunc]

/-- Splitting a signed 64-bit value into two unsigned 32-bit register halves and
reassembling them through `toInt64` is the identity on the `int64_t` range. -/
theorem u32_encode_decode (b : ℤ)
    (hlo : -0x8000000000000000 ≤ b) (hhi : b < 0x8000000000000000) :
    toInt64 (u32 b % 0x100000000 +
      0x100000000 * (u32 (b / 0x100000000) % 0x100000000)) = b := by
  unfold toInt64 u32
  have e1 : 0x100000000 * (b / 0x100000000) + b % 0x100000000 = b :=
    Int.ediv_add_emod b 0x100000000
  have e2 : 0x100000000 * (b / 0x100000000 / 0x100000000) +
      b / 0x100000000 % 0x100000000 = b / 0x100000000 :=
    Int.ediv_add_emod (b / 0x100000000) 0x100000000
  have p1 : 0 ≤ b % 0x100000000 := Int.emod_nonneg b (by norm_num)
  have p2 : b % 0x100000000 < 0x100000000 := Int.emod_lt_of_pos b (by norm_num)
  have p3 : 0 ≤ b / 0x100000000 % 0x100000000 :=
    Int.emod_nonneg (b / 0x100000000) (by norm_num)
  have p4 : b / 0x100000000 % 0x100000000 < 0x100000000 :=
    Int.emod_lt_of_pos (b / 0x100000000) (by norm_num)
  split_ifs <;> omega

/-- Scaling an increment `b` that approximates the exact value within `(-1/2, +3/2)`
back to Hz and rounding with `floor(x + 0.5)` recovers the integer frequency, because
the scale factor `125000000 / 2^48` shrinks the error far below half a hertz. -/
theorem qrg_floor_recover (f b : ℤ)
    (h1 : rb_qrg_pre 125000000 (f : ℚ) - 1/2 < (b : ℚ))
    (h2 : (b : ℚ) < rb_qrg_pre 125000000 (f : ℚ) + 3/2) :
    ⌊(125000000 : ℚ) * ((b : ℚ) / (2 : ℚ) ^ 48) + 1/2⌋ = f := by
  unfold rb_qrg_pre at h1 h2
  rw [Int.floor_eq_iff]
  norm_num at h1 h2 ⊢
  constructor
  · linarith
  · linarith

/-- For frequencies up to 62.5 MHz the written DDS increment fits the `int64_t` range
(it is below `2^48` in magnitude). -/
theorem rb_qrg_bitfield_range (f : ℤ) (h1 : -62500000 ≤ f) (h2 : f ≤ 62500000) :
    -0x8000000000000000 ≤ rb_qrg_bitfield 125000000 (f : ℚ) ∧
    rb_qrg_bitfield 125000000 (f : ℚ) < 0x8000000000000000 := by
  obtain ⟨hb1, hb2⟩ := rb_qrg_bitfield_bounds 125000000 (f : ℚ)
  unfold rb_qrg_pre at hb1 hb2
  have hf1 : (-62500000 : ℚ) ≤ (f : ℚ) := by exact_mod_cast h1
  have hf2 : (f : ℚ) ≤ (62500000 : ℚ) := by exact_mod_cast h2
  constructor
  · have h : (-0x8000000000000000 : ℚ) ≤ (rb_qrg_bitfield 125000000 (f : ℚ) : ℚ) := by
      norm_num at hb1 ⊢
      nlinarith
    exact_mod_cast h
  · have h : (rb_qrg_bitfield 125000000 (f : ℚ) : ℚ) < (0x8000000000000000 : ℚ) := by
      norm_num at hb2 ⊢
      nlinarith
    exact_mod_cast h

/-- Reading back the split increment written for an in-range integer frequency and
rounding to the nearest hertz recovers the frequency exactly. -/
theorem qrg_readback_eq (f : ℤ) (h1 : -62500000 ≤ f) (h2 : f ≤ 62500000) :
    ⌊(125000000 : ℚ) *
      (((toInt64 (u32 (rb_qrg_bitfield 125000000 (f : ℚ)) % 0x100000000 +
          0x100000000 *
            (u32 (rb_qrg_bitfield 125000000 (f : ℚ) / 0x100000000) % 0x100000000)) :
        ℤ) : ℚ) / (2 : ℚ) ^ 48) + 1/2⌋ = f := by
  obtain ⟨hr1, hr2⟩ := rb_qrg_bitfield_range f h1 h2
  rw [u32_encode_decode (rb_qrg_bitfield 125000000 (f : ℚ)) hr1 hr2]
  exact qrg_floor_recover f _ (rb_qrg_bitfield_bounds 125000000 (f : ℚ)).1
    (rb_qrg_bitfield_bounds 125000000 (f : ℚ)).2

/-- The shift-based refinement loop of the source equals the power-of-two formulation
used by the claim, step by step. -/
theorem rp_minimize_noise_aux_eq (meas : ℤ → ℕ → ℕ) :
    ∀ n acc, rp_minimize_noise_aux meas n acc = rp_minimize_noise_claim_aux meas n acc := by
  intro n
  induction n with
  | zero => intro acc; rfl
  | succ i ih =>
    intro acc
    simp only [rp_minimize_noise_aux, rp_minimize_noise_claim_aux, Nat.shiftLeft_eq,
      one_mul]
    exact ih _

/-- Masking a 16-bit value with `0xffff` is the identity. -/
theorem and_ffff_of_lt (n : ℕ) (h : n < 0x10000) : 0xffff &&& n = n := by
  rw [Nat.and_comm]
  have e := Nat.and_pow_two_sub_one_eq_mod n 16
  norm_num at e
  rw [e]
  exact Nat.mod_eq_of_lt h

/-- The booster encoding `(s << 16) | 0xffff` equals `0x10000 * s + 0xffff`. -/
theorem shl16_or_ffff (s : ℕ) : (s <<< 16) ||| 0xffff = 0x10000 * s + 0xffff := by
  rw [Nat.shiftLeft_eq, Nat.mul_comm, ← Nat.mul_add_lt_is_or
    (show (0xffff : ℕ) < 2 ^ 16 by norm_num)]

/-- The shared muxin gain encoding matches the claim formulation: linear `round`
encoding up to 80 percent and the booster regime above, and the linear value fits in
16 bits (no booster shift bits). -/
theorem clamped_muxin_bitfield_eq (c : ℚ) (hc : 0 ≤ c) (g : ℤ) (h1 : 0 < g)
    (h2 : g ≤ 100) :
    clamped_muxin_bitfield c g =
      (if g ≤ 80 then (round ((g : ℚ) * 0xffff / 80)).toNat
       else 0x10000 * (round (((g : ℚ) - 80) * c)).toNat + 0xffff) ∧
    (g ≤ 80 → clamped_muxin_bitfield c g < 0x10000) := by
  have hgq : (0 : ℚ) < (g : ℚ) := by exact_mod_cast h1
  have main : clamped_muxin_bitfield c g =
      (if g ≤ 80 then (round ((g : ℚ) * 0xffff / 80)).toNat
       else 0x10000 * (round (((g : ℚ) - 80) * c)).toNat + 0xffff) := by
    unfold clamped_muxin_bitfield
    rw [if_neg (by omega)]
    by_cases hg80 : g < 80
    · rw [if_pos hg80, if_pos (by omega)]
      have h0 : (0 : ℚ) ≤ 1/2 + (g : ℚ) * 0xffff / 80 := by linarith
      unfold ratTrunc
      rw [if_pos h0, add_comm ((1 : ℚ)/2), ← round_eq]
      refine and_ffff_of_lt _ ?_
      have hfl : round ((g : ℚ) * 0xffff / 80) < 0x10000 := by
        rw [round_eq, Int.floor_lt]
        have hg79 : (g : ℚ) ≤ 79 := by exact_mod_cast (show g ≤ (79 : ℤ) by omega)
        push_cast
        linarith
      omega
    · rw [if_neg hg80]
      by_cases hg80e : g ≤ 80
      · have hg : g = 80 := by omega
        subst hg
        rw [if_pos (by omega)]
        norm_num [ratTrunc, round_eq, Nat.shiftLeft_eq]
        rfl
      · rw [if_neg hg80e]
        have h80 : (80 : ℚ) ≤ (g : ℚ) := by
          exact_mod_cast (show (80 : ℤ) ≤ g by omega)
        have hy : (0 : ℚ) ≤ ((g : ℚ) - 80) * c := mul_nonneg (by linarith) hc
        have h0 : (0 : ℚ) ≤ 1/2 + ((g : ℚ) - 80) * c := by linarith
        unfold ratTrunc
        rw [if_pos h0, add_comm ((1 : ℚ)/2), ← round_eq, shl16_or_ffff]
  refine ⟨main, fun hle => ?_⟩
  rw [main, if_pos hle]
  have hfl : round ((g : ℚ) * 0xffff / 80) < 0x10000 := by
    rw [round_eq, Int.floor_lt]
    have hg80 : (g : ℚ) ≤ 80 := by exact_mod_cast hle
    push_cast
    linarith
  omega

/-- C1 (code bug evaluation): at the failing input `f = -1` Hz with
`base_osc_hz = 125000000`, every frequency setter writes the increment `-2251799`
(truncation of `x + 0.5` towards zero, because the negative branch executes
`qrg -= -0.5`), whereas the symmetric rounding stated by the spec gives `-2251800`;
the two register values differ. -/
theorem c1_negative_rounding_eval :
    rb_qrg_bitfield 125000000 (-1) = -2251799 ∧
    roundSym (rb_qrg_pre 125000000 (-1)) = -2251800 ∧
    (fpga_rb_set_tx_car_osc_qrg__4mod_cw_ssb_am_pm 125000000 (-1)
      RbRegs.zero).tx_car_osc_inc_lo = u32 (-2251799) ∧
    (fpga_rb_set_rx_car_osc_qrg__4mod_ssb_am_fm_pm 125000000 (-1)
      RbRegs.zero).rx_car_osc_inc_lo = u32 (-2251799) ∧
    (fpga_rb_set_tx_mod_osc_qrg__4mod_ssbweaver_am_fm_pm 125000000 (-1)
      RbRegs.zero).tx_mod_osc_inc_lo = u32 (-2251799) ∧
    u32 (-2251799) ≠ u32 (-2251800) := by
  have hbit : rb_qrg_bitfield 125000000 (-1) = -2251799 := by
    unfold rb_qrg_bitfield rb_qrg_pre
    rw [if_neg (by norm_num), if_pos (by norm_num)]
    unfold ratTrunc
    rw [if_neg (by norm_num), Int.ceil_eq_iff]
    constructor <;> norm_num
  refine ⟨hbit, ?_, ?_, ?_, ?_, by decide⟩
  · unfold roundSym rb_qrg_pre
    rw [if_pos (by norm_num), round_eq]
    norm_num
  · show u32 (rb_qrg_bitfield 125000000 (-1)) = u32 (-2251799)
    rw [hbit]
  · show u32 (rb_qrg_bitfield 125000000 (-1)) = u32 (-2251799)
    rw [hbit]
  · show u32 (rb_qrg_bitfield 125000000 (-1)) = u32 (-2251799)
    rw [hbit]

/-- C2: `rp_minimize_noise` is, for every deterministic measurement function, exactly
the claimed successive-approximation search: 15 bit positions from bit 15 down to
bit 1, candidates `min | 2^(i-1)` and `min | 3*2^(i-1)`, bit `i` set exactly when the
high candidate measures strictly smaller, one final LSB decision, and the winner
shifted to a signed offset by subtracting `0x8000`. -/
theorem c2_minimize_noise_matches_claim :
    ∀ meas : ℤ → ℕ → ℕ, rp_minimize_noise meas = rp_minimize_noise_claim meas := by
  intro meas
  unfold rp_minimize_noise rp_minimize_noise_claim
  rw [rp_minimize_noise_aux_eq meas]

/-- C3: for gain percentages `0 < g ≤ 100`, the written muxin gain register is the
linear encoding `round(g * 0xffff / 80)` with no booster shift bits up to 80 percent,
and above 80 percent the low 16 bits are fully opened to `0xffff` with the booster
shift field equal to `round((g-80) * 7/20)` on the TX path and `round((g-80) * 5/20)`
on the RX path. -/
theorem c3_muxin_gain_conversion (g : ℤ) (h1 : 0 < g) (h2 : g ≤ 100) (r : RbRegs) :
    ((fpga_rb_set_tx_muxin_gain_regs g 0 r).tx_muxin_gain =
      if g ≤ 80 then (round ((g : ℚ) * 0xffff / 80)).toNat
      else 0x10000 * (round (((g : ℚ) - 80) * (7/20))).toNat + 0xffff) ∧
    (g ≤ 80 → (fpga_rb_set_tx_muxin_gain_regs g 0 r).tx_muxin_gain < 0x10000) ∧
    ((fpga_rb_set_rx_muxin_gain_regs g 0 r).rx_muxin_gain =
      if g ≤ 80 then (round ((g : ℚ) * 0xffff / 80)).toNat
      else 0x10000 * (round (((g : ℚ) - 80) * (5/20))).toNat + 0xffff) ∧
    (g ≤ 80 → (fpga_rb_set_rx_muxin_gain_regs g 0 r).rx_muxin_gain < 0x10000) := by
  have htx : (fpga_rb_set_tx_muxin_gain_regs g 0 r).tx_muxin_gain =
      clamped_muxin_bitfield (7/20) g := by
    show tx_muxin_gain_bitfield g = _
    unfold tx_muxin_gain_bitfield
    rw [if_neg (by omega)]
  have hrx : (fpga_rb_set_rx_muxin_gain_regs g 0 r).rx_muxin_gain =
      clamped_muxin_bitfield (5/20) g := by
    show rx_muxin_gain_bitfield g = _
    unfold rx_muxin_gain_bitfield
    rw [if_neg (by omega)]
  obtain ⟨e7, b7⟩ := clamped_muxin_bitfield_eq (7/20) (by norm_num) g h1 h2
  obtain ⟨e5, b5⟩ := clamped_muxin_bitfield_eq (5/20) (by norm_num) g h1 h2
  rw [htx, hrx]
  exact ⟨e7, b7, e5, b5⟩

/-- Witness for C3 at the concrete gain 90 percent (booster regime on both paths),
with both hypotheses discharged at the concrete input. -/
theorem c3_muxin_gain_conversion_witness :
    0 < (90 : ℤ) ∧ (90 : ℤ) ≤ 100 ∧
    (fpga_rb_set_tx_muxin_gain_regs 90 0 RbRegs.zero).tx_muxin_gain =
      (if (90 : ℤ) ≤ 80 then (round (((90 : ℤ) : ℚ) * 0xffff / 80)).toNat
       else 0x10000 * (round ((((90 : ℤ) : ℚ) - 80) * (7/20))).toNat + 0xffff) :=
  ⟨by decide, by decide,
    (c3_muxin_gain_conversion 90 (by decide) (by decide) RbRegs.zero).1⟩

/-- C4 (counterexample): the cited operation `prepare_rx_measurement` accesses the
mapped register structure even when `g_fpga_rb_reg_mem` is null — the C function
contains no null check, so the claim that the null pointer is checked before every
access fails at this concrete call. -/
theorem c4_prepare_rx_measurement_null_access :
    prepare_rx_measurement 0x20 none = .error () := rfl

/-- C4 (amended): the null check guards the top-level operations — `fpga_rb_enable`
returns without any access on a null pointer, `fpga_get_version` returns the `-1`
sentinel, and `fpga_rb_update_all_params` returns `-1` — while the low-level setter and
calibration helpers (`fpga_rb_set_tx_muxin_gain`, `fpga_rb_set_rx_muxin_gain`,
`prepare_rx_measurement`) access the mapped structure unconditionally. -/
theorem c4_null_guard_amended :
    (∀ enable, fpga_rb_enable enable none = .ok none) ∧
    fpga_get_version none = .ok (u32 (-1)) ∧
    (∀ pb_present p_pn_present pn_present,
      fpga_rb_update_all_params_ret false pb_present p_pn_present pn_present = -1) ∧
    (∀ g o, fpga_rb_set_tx_muxin_gain g o none = .error ()) ∧
    (∀ g o, fpga_rb_set_rx_muxin_gain g o none = .error ()) ∧
    (∀ l, prepare_rx_measurement l none = .error ()) :=
  ⟨fun _ => rfl, rfl, fun _ _ _ => rfl, fun _ _ => rfl, fun _ _ => rfl, fun _ => rfl⟩

/-- C5 (counterexample): with the version register holding `0x1201010A` — inside the
accepted range but with a hexadecimal low nibble — `fpga_get_version` fails with the
`-3` sentinel, which is neither `-1` nor `-2` nor the stored version, refuting the
claim that failures return only the `-1`/`-2` sentinels. -/
theorem c5_get_version_minus3 :
    fpga_get_version (some { RbRegs.zero with version := 0x1201010A }) =
      .ok (u32 (-3)) ∧
    u32 (-3) ≠ u32 (-1) ∧ u32 (-3) ≠ u32 (-2) ∧ u32 (-3) ≠ 0x1201010A :=
  ⟨rfl, by decide, by decide, by decide⟩

/-- C5 (amended): `fpga_rb_update_all_params` returns `-1` when the register pointer,
base list or list pointer is null and `-2` when the dereferenced new-parameter list is
null, and `fpga_get_version` returns only the `-1`, `-2` or `-3` sentinels on failure
(and the version register value on success). -/
theorem c5_error_codes_amended :
    (∀ a b c d : Bool, fpga_rb_update_all_params_ret a b c d =
      if a && b && c then (if d then 0 else -2) else -1) ∧
    (∀ r : RbRegs, fpga_get_version (some r) = .ok r.version ∨
      fpga_get_version (some r) = .ok (u32 (-2)) ∨
      fpga_get_version (some r) = .ok (u32 (-3))) ∧
    fpga_get_version none = .ok (u32 (-1)) := by
  refine ⟨?_, ?_, rfl⟩
  · intro a b c d
    cases a <;> cases b <;> cases c <;> cases d <;> rfl
  · intro r
    simp only [fpga_get_version]
    split_ifs with h1 h2
    · exact Or.inr (Or.inl rfl)
    · exact Or.inr (Or.inr rfl)
    · exact Or.inl rfl

/-- C6 (code bug evaluation): starting from the all-zero static cache, a call whose
only change is `src_con_pnt2 = 1` takes the recompute branch (the `src_con_pnt2`
register is written), yet the cached `src_con_pnt2_old` is left at `0` instead of
being updated to the current parameter `1` — the source never assigns
`src_con_pnt2_old`. -/
theorem c6_src_con_pnt2_cache_stale :
    (fpga_rb_set_ctrl_gate (fun _ _ => 1) 0 1 0 0 0 0 {} RbRegs.zero).2.src_con_pnt2 =
      1 ∧
    (fpga_rb_set_ctrl_gate (fun _ _ => 1) 0 1 0 0 0 0 {}
      RbRegs.zero).1.src_con_pnt2_old = 0 :=
  ⟨rfl, rfl⟩

/-- C7 (code bug evaluation): `housekeeping_control_t` has exactly 13 32-bit words, but
its last word `led_control` sits at byte offset 48 = 0x30, so its four bytes lie
outside the mapped window of `HOUSEKEEPING_BASE_SIZE = 0x30` bytes. -/
theorem c7_led_control_outside_window :
    housekeeping_control_fields.length = 13 ∧
    (48 : ℕ) ∈ housekeeping_word_offsets ∧
    ¬ (∀ o ∈ housekeeping_word_offsets, o + 4 ≤ HOUSEKEEPING_BASE_SIZE) :=
  ⟨rfl, by decide, fun h => absurd (h 48 (by decide)) (by decide)⟩

/-- C8: for every integer frequency with magnitude at most 62500000 Hz and the base
oscillator frequency fixed at 125 MHz, the TX and RX carrier oscillator set/get pairs
round-trip exactly at integer-hertz resolution. -/
theorem c8_qrg_set_get_roundtrip (f : ℤ) (h1 : -62500000 ≤ f) (h2 : f ≤ 62500000)
    (r : RbRegs) :
    fpga_rb_get_tx_car_osc_qrg 125000000
      (fpga_rb_set_tx_car_osc_qrg__4mod_cw_ssb_am_pm 125000000 (f : ℚ) r) = (f : ℚ) ∧
    fpga_rb_get_rx_car_osc_qrg 125000000
      (fpga_rb_set_rx_car_osc_qrg__4mod_ssb_am_fm_pm 125000000 (f : ℚ) r) = (f : ℚ) := by
  constructor
  · dsimp only [fpga_rb_get_tx_car_osc_qrg,
      fpga_rb_set_tx_car_osc_qrg__4mod_cw_ssb_am_pm]
    exact_mod_cast qrg_readback_eq f h1 h2
  · dsimp only [fpga_rb_get_rx_car_osc_qrg,
      fpga_rb_set_rx_car_osc_qrg__4mod_ssb_am_fm_pm]
    exact_mod_cast qrg_readback_eq f h1 h2

/-- Witness for C8 at the concrete frequency 12345678 Hz on the TX pair, with both
hypotheses discharged at the concrete input. -/
theorem c8_qrg_set_get_roundtrip_witness :
    -62500000 ≤ (12345678 : ℤ) ∧ (12345678 : ℤ) ≤ 62500000 ∧
    fpga_rb_get_tx_car_osc_qrg 125000000
      (fpga_rb_set_tx_car_osc_qrg__4mod_cw_ssb_am_pm 125000000 ((12345678 : ℤ) : ℚ)
        RbRegs.zero) = ((12345678 : ℤ) : ℚ) :=
  ⟨by decide, by decide,
    (c8_qrg_set_get_roundtrip 12345678 (by decide) (by decide) RbRegs.zero).1⟩

/-- C10: `hk_SetLedBits` returns the read-only error `RP_EMRO` exactly when the
requested bit mask equals `0x1`; any other mask — including `0x3`, which contains
bit 0 together with another bit — performs the masked set operation on the LED control
register, so the first LED is protected only against the exact mask `0x1`. -/
theorem c10_set_led_bits (bits led_control : ℕ) :
    ((hk_SetLedBits bits led_control).1 = HkStatus.RP_EMRO ↔ bits = 0x1) ∧
    hk_SetLedBits 0x3 led_control =
      (HkStatus.RP_OK, cmn_SetBits led_control 0x3 LED_CONTROL_MASK) := by
  constructor
  · unfold hk_SetLedBits
    split_ifs with h
    · exact ⟨fun _ => h, fun _ => rfl⟩
    · exact ⟨fun hh => absurd hh (by decide), fun hb => absurd hb h⟩
  · rfl
